import Mathlib

/-!
Verification of the kube manifest editor frontend: a shallow embedding of
the Zustand editor store (`useEditorStore`), the API client (`fetchApi`),
and the React components (`PropertyEditor.handleSave`, `App.handleApply`),
together with spec-modelled fragments of the backend Manifest Graph Engine
(relationship resolver, mutation engine) whose source is not part of the
frontend bundle.

Asynchronous API calls are embedded by passing the call's outcome as an
explicit `Except` argument: `.ok v` is a resolved promise, `.error e` a
rejected one, so a store action becomes a pure state-transition function
`StoreState → outcome → StoreState`.
-/

/-- A JSON value, the payload type of API responses. -/
inductive Json where
  | null : Json
  | bool (b : Bool) : Json
  | num (n : Int) : Json
  | str (s : String) : Json
  | arr (elems : List Json) : Json
  | obj (fields : List (String × Json)) : Json

/-- Presentation-only coordinates on a node (`visual` in the data model). -/
structure Visual where
  x : Int
  y : Int
  width : Int
  height : Int
deriving DecidableEq

/-- One container entry of a Deployment (`name`/`image`, as edited by the
property editor's spec tab). -/
structure Container where
  name : String
  image : String
deriving DecidableEq

/-- One port entry of a Service (`port`/`targetPort`). -/
structure Port where
  port : Int
  targetPort : Option Int
deriving DecidableEq

/-- A graph node as held in the frontend store: the common envelope plus the
kind-specific optional fields that the property editor reads and writes. -/
structure GraphNode where
  id : String
  kind : String
  name : String
  «namespace» : String
  labels : List (String × String)
  filePath : String
  visual : Visual
  replicas : Option Int
  serviceType : Option String
  selector : Option (List (String × String))
  containers : Option (List Container)
  ports : Option (List Port)
deriving DecidableEq

/-- A derived relationship edge: `{from, to, relationType}`. -/
structure GraphEdge where
  «from» : String
  «to» : String
  relationType : String
deriving DecidableEq

/-- One tracked source file: `{path, dirty, nodeIds}`. -/
structure FileInfo where
  path : String
  dirty : Bool
  nodeIds : List String
deriving DecidableEq

/-- The graph shape the HTTP layer transmits:
`{nodes: [...], edges: [...], files: {path: FileInfo}}`; the `files`
mapping is embedded as an association list keyed by path. -/
structure Graph where
  nodes : List GraphNode
  edges : List GraphEdge
  files : List (String × FileInfo)
deriving DecidableEq

/-- A validation diagnostic `{nodeId, severity, message}`. -/
structure ValidationError where
  nodeId : String
  severity : String
  message : String
deriving DecidableEq

/-- The editor store's state (the fields of `useEditorStore`'s initial
state, omitting none). -/
structure StoreState where
  graph : Option Graph
  selectedNodeId : Option String
  selectedFile : Option String
  isAuthenticated : Bool
  user : Option String
  repositories : List String
  selectedRepo : Option String
  selectedBranch : Option String
  repoPath : String
  validationErrors : List ValidationError
  isLoading : Bool
  error : Option String
  sidebarOpen : Bool
deriving DecidableEq

/-! ## The API client: `fetchApi` -/

/-- What the `fetch` call hands back: the fields of the `Response` object
that `fetchApi` inspects.  `jsonBody` stands for the value produced by
`response.json()`. -/
structure FetchResponse where
  ok : Bool
  bodyText : String
  statusText : String
  jsonBody : Json

/-- The function `fetchApi`: on a non-ok response, throw `Error(bodyText || statusText)`;
otherwise return the parsed JSON body. -/
def fetchApi (r : FetchResponse) : Except String Json :=
  if !r.ok then
    Except.error (if r.bodyText = "" then r.statusText else r.bodyText)
  else
    Except.ok r.jsonBody

/-! ## Store actions -/

/-- The action `loadGraph`: set loading, fetch `/graph`; on success install the graph,
on failure record the error message; either way clear the loading flag. -/
def loadGraph (s : StoreState) (fetched : Except String Graph) : StoreState :=
  let s1 := { s with isLoading := true, error := none }
  match fetched with
  | Except.ok g => { s1 with graph := some g, isLoading := false }
  | Except.error e => { s1 with error := some e, isLoading := false }

/-- The action `updateNode`: POST `/nodes/update`; on success install the returned
graph and diagnostics, on failure record the error message. -/
def updateNode (s : StoreState) (apiResult : Except String (Graph × List ValidationError)) :
    StoreState :=
  match apiResult with
  | Except.ok (g, errors) => { s with graph := some g, validationErrors := errors }
  | Except.error e => { s with error := some e }

/-- The action `deleteNode`: DELETE `/nodes/:id`; on success filter the node out of
`graph.nodes` and every edge touching it out of `graph.edges`, install the
returned diagnostics and clear the selection; on failure record the error.
When no graph is loaded the success branch changes nothing. -/
def deleteNode (s : StoreState) (apiResult : Except String (List ValidationError))
    (nodeId : String) : StoreState :=
  match apiResult with
  | Except.error e => { s with error := some e }
  | Except.ok errors =>
    match s.graph with
    | none => s
    | some g =>
      { s with
        graph := some
          { g with
            nodes := g.nodes.filter (fun n => n.id ≠ nodeId),
            edges := g.edges.filter (fun e => e.«from» ≠ nodeId ∧ e.«to» ≠ nodeId) },
        validationErrors := errors,
        selectedNodeId := none }

/-- The in-place mutation `node.visual.x = x; node.visual.y = y` applied to
the first node found with the given id (`graph.nodes.find`). -/
def setNodePos (nodeId : String) (x y : Int) : List GraphNode → List GraphNode
  | [] => []
  | n :: rest =>
    if n.id = nodeId then
      { n with visual := { n.visual with x := x, y := y } } :: rest
    else
      n :: setNodePos nodeId x y rest

/-- The action `updateNodePosition`: if a graph is loaded and contains a node with the
given id, update that node's `visual.x`/`visual.y` and re-install the
graph; otherwise leave the state untouched. -/
def updateNodePosition (s : StoreState) (nodeId : String) (x y : Int) : StoreState :=
  match s.graph with
  | none => s
  | some g =>
    if g.nodes.any (fun n => n.id = nodeId) then
      { s with graph := some { g with nodes := setNodePos nodeId x y g.nodes } }
    else s

/-- The action `applyChanges`: POST `/apply`; on success reload the graph via
`loadGraph` and return the result, on failure record the error message and
re-throw.  The pair returned is (new state, what the caller observes). -/
def applyChanges (s : StoreState) (applyResult : Except String Json)
    (fetched : Except String Graph) : StoreState × Except String Json :=
  let s1 := { s with isLoading := true, error := none }
  match applyResult with
  | Except.error e =>
      ({ s1 with error := some e, isLoading := false }, Except.error e)
  | Except.ok r =>
      let s2 := loadGraph s1 fetched
      ({ s2 with isLoading := false }, Except.ok r)

/-- The selector `getDirtyFiles`: `Object.values(graph.files).filter(f => f.dirty)`,
or `[]` when no graph is loaded. -/
def getDirtyFiles (s : StoreState) : List FileInfo :=
  match s.graph with
  | none => []
  | some g => (g.files.map Prod.snd).filter (fun f => f.dirty)

/-! ## `PropertyEditor.handleSave` -/

/-- The sparse `updates` object assembled by `handleSave`.  An outer `none`
means the key is absent from the object; for `replicas` and `serviceType`
the assigned JavaScript value may itself be `undefined`, hence the nested
`Option`. -/
structure Updates where
  name : Option String
  «namespace» : Option String
  labels : Option (List (String × String))
  replicas : Option (Option Int)
  serviceType : Option (Option String)
  selector : Option (List (String × String))
  containers : Option (List Container)
  ports : Option (List Port)
deriving DecidableEq

/-- True when `Object.keys(updates).length > 0` is false. -/
def Updates.isEmpty (u : Updates) : Bool :=
  u.name.isNone && u.«namespace».isNone && u.labels.isNone && u.replicas.isNone &&
    u.serviceType.isNone && u.selector.isNone && u.containers.isNone && u.ports.isNone

/-- The field-by-field comparison of `handleSave`: each field is put into
`updates` when it differs between the edited copy and the node, except
that `selector`, `containers` and `ports` are additionally guarded by the
truthiness of the edited copy's value (`localNode.selector && ...`).
`JSON.stringify` comparison of objects is embedded as structural equality
of the (order-preserving) association lists. -/
def buildUpdates (node localNode : GraphNode) : Updates where
  name := if localNode.name ≠ node.name then some localNode.name else none
  «namespace» :=
    if localNode.«namespace» ≠ node.«namespace» then some localNode.«namespace» else none
  labels := if localNode.labels ≠ node.labels then some localNode.labels else none
  replicas := if localNode.replicas ≠ node.replicas then some localNode.replicas else none
  serviceType :=
    if localNode.serviceType ≠ node.serviceType then some localNode.serviceType else none
  selector :=
    match localNode.selector with
    | some v => if some v ≠ node.selector then some v else none
    | none => none
  containers :=
    match localNode.containers with
    | some v => if some v ≠ node.containers then some v else none
    | none => none
  ports :=
    match localNode.ports with
    | some v => if some v ≠ node.ports then some v else none
    | none => none

/-- The handler `handleSave`: build the sparse updates and call
`updateNode(node.id, updates)` only when the updates object is non-empty;
the returned value is the argument pair of that call, or `none` when no
call is made. -/
def handleSave (node localNode : GraphNode) : Option (String × Updates) :=
  let updates := buildUpdates node localNode
  if updates.isEmpty then none else some (node.id, updates)

/-! ## `App.handleApply` and the Apply button -/

/-- Whitespace as trimmed by JavaScript `String.prototype.trim` (the
characters that can occur in a commit-message input). -/
def isJsWhitespace (c : Char) : Bool :=
  c = ' ' || c = '\t' || c = '\n' || c = '\r' || c = '\x0b' || c = '\x0c'

/-- JavaScript `commitMessage.trim()`. -/
def jsTrim (s : String) : String :=
  String.mk (((s.toList.dropWhile isJsWhitespace).reverse.dropWhile isJsWhitespace).reverse)

/-- The handler `App.handleApply`: returns early when `commitMessage.trim()` is falsy
(the empty string); otherwise calls `applyChanges(commitMessage, createPR)`.
The result is the argument pair of that call, or `none` when the guard
returns early. -/
def handleApply (commitMessage : String) (createPR : Bool) : Option (String × Bool) :=
  if jsTrim commitMessage = "" then none
  else some (commitMessage, createPR)

/-- The Apply button's `disabled={!commitMessage.trim() || applying}`. -/
def applyButtonDisabled (commitMessage : String) (applying : Bool) : Bool :=
  (jsTrim commitMessage = "") || applying

/-! ## Spec-modelled backend fragments

The Manifest Graph Engine (parser, resolver, validator, mutation engine,
serializer) runs server-side and its source is not part of this bundle;
the fragments below are modelled from the spec. -/

/-- Modelled from the spec: the label-subset test of the Relationship
Resolver (§4.3) — every key/value pair in the selector must match the
target's labels exactly. -/
def selectorMatches (sel labels : List (String × String)) : Bool :=
  sel.all (fun kv => labels.lookup kv.1 = some kv.2)

/-- Modelled from the spec: the `selector` edges one node contributes as a
source (§4.3) — a `selector` edge Service→Deployment/Pod when the
Service's selector mapping is a non-empty subset of the target's labels,
within the same namespace. -/
def selectorEdgesFor (nodes : List GraphNode) (s : GraphNode) : List GraphEdge :=
  if s.kind = "Service" then
    match s.selector with
    | some sel =>
      if sel ≠ [] then
        (nodes.filter (fun t =>
          (t.kind = "Deployment" ∨ t.kind = "Pod") ∧
            t.«namespace» = s.«namespace» ∧ selectorMatches sel t.labels)).map
          (fun t => { «from» := s.id, «to» := t.id, relationType := "selector" })
      else []
    | none => []
  else []

/-- Modelled from the spec: the `selector` rule of the Relationship
Resolver (§4.3), evaluated for every source node.  (The full resolver also
emits `service-target` and `ingress-backend` edges; the claims below
concern only `selector` edges.) -/
def selectorEdges (nodes : List GraphNode) : List GraphEdge :=
  nodes.flatMap (selectorEdgesFor nodes)

/-- Modelled from the spec: the errors the Mutation Engine raises (§7). -/
inductive MutationError where
  | conflict : MutationError
  | notFound : MutationError
deriving DecidableEq

/-- Modelled from the spec: the deterministic node id derived from
`(kind, namespace, name)` (§3). -/
def nodeIdOf (kind ns name : String) : String :=
  kind ++ "/" ++ ns ++ "/" ++ name

/-- Modelled from the spec: marking a file dirty on create — the entry is
updated in place when the path is tracked, otherwise a new tracked entry
is appended (§4.5 Create). -/
def markFileDirty (files : List (String × FileInfo)) (path nodeId : String) :
    List (String × FileInfo) :=
  if (files.map Prod.fst).contains path then
    files.map (fun pf =>
      if pf.1 = path then
        (pf.1, { pf.2 with dirty := true, nodeIds := pf.2.nodeIds ++ [nodeId] })
      else pf)
  else
    files ++ [(path, { path := path, dirty := true, nodeIds := [nodeId] })]

/-- Modelled from the spec: the Mutation Engine's `createNode` (§4.5) —
fails with `ConflictError` when `(kind, namespace, name)` is already
present, leaving the graph unchanged; otherwise inserts the node with its
deterministic id and marks its file dirty. -/
def createNode (g : Graph) (n : GraphNode) : Except MutationError Graph :=
  if g.nodes.any (fun m =>
      m.kind = n.kind && m.«namespace» = n.«namespace» && m.name = n.name) then
    Except.error MutationError.conflict
  else
    let inserted := { n with id := nodeIdOf n.kind n.«namespace» n.name }
    Except.ok
      { g with
        nodes := g.nodes ++ [inserted],
        files := markFileDirty g.files n.filePath inserted.id }

/-- The graph the caller holds after a mutation: the engine's result on
success, the unchanged input on failure (conflict/not-found issues are
surfaced as explicit failures with no partial mutation, §7). -/
def resultGraph (g : Graph) (r : Except MutationError Graph) : Graph :=
  match r with
  | Except.ok g' => g'
  | Except.error _ => g

/-! ## Shape and frame helpers -/

/-- The transmitted graph shape's coherence: `files` is a path-keyed
mapping, i.e. every entry's key is the record's own `path`. -/
def WellShaped (g : Graph) : Prop :=
  ∀ pf ∈ g.files, pf.2.path = pf.1

instance (g : Graph) : Decidable (WellShaped g) := by
  unfold WellShaped; infer_instance

/-- A node with only `visual.x` and `visual.y` replaced. -/
def withPos (n : GraphNode) (x y : Int) : GraphNode :=
  { n with visual := { n.visual with x := x, y := y } }

/-! ## Concrete sample data (used by witnesses) -/

/-- A dirty tracked file. -/
def fileA : FileInfo := { path := "a.yaml", dirty := true, nodeIds := ["n1", "n2"] }

/-- A clean tracked file. -/
def fileB : FileInfo := { path := "b.yaml", dirty := false, nodeIds := [] }

/-- A Deployment node with label `app: x`. -/
def nodeD : GraphNode where
  id := "n1"
  kind := "Deployment"
  name := "web"
  «namespace» := "default"
  labels := [("app", "x")]
  filePath := "a.yaml"
  visual := { x := 0, y := 0, width := 120, height := 60 }
  replicas := some 2
  serviceType := none
  selector := none
  containers := some [{ name := "web", image := "nginx" }]
  ports := none

/-- A Service node selecting `app: x`. -/
def nodeS : GraphNode where
  id := "n2"
  kind := "Service"
  name := "web-svc"
  «namespace» := "default"
  labels := [("app", "x")]
  filePath := "a.yaml"
  visual := { x := 200, y := 0, width := 120, height := 60 }
  replicas := none
  serviceType := some "ClusterIP"
  selector := some [("app", "x")]
  containers := none
  ports := some [{ port := 80, targetPort := some 8080 }]

/-- A ConfigMap node carrying the very labels `nodeS` selects. -/
def cmNode : GraphNode where
  id := "cm"
  kind := "ConfigMap"
  name := "cfg"
  «namespace» := "default"
  labels := [("app", "x")]
  filePath := "a.yaml"
  visual := { x := 0, y := 100, width := 120, height := 60 }
  replicas := none
  serviceType := none
  selector := none
  containers := none
  ports := none

/-- A loaded two-node graph over two files. -/
def sampleGraph : Graph where
  nodes := [nodeD, nodeS]
  edges := [{ «from» := "n2", «to» := "n1", relationType := "selector" }]
  files := [("a.yaml", fileA), ("b.yaml", fileB)]

/-- A store state with `sampleGraph` loaded. -/
def sampleState : StoreState where
  graph := some sampleGraph
  selectedNodeId := some "n1"
  selectedFile := none
  isAuthenticated := true
  user := some "dev"
  repositories := ["me/kube"]
  selectedRepo := some "me/kube"
  selectedBranch := some "main"
  repoPath := ""
  validationErrors := []
  isLoading := false
  error := none
  sidebarOpen := true

/-! ## Claims -/

/-- C5: `fetchApi` raises an error iff the response is not ok; on a non-ok
response the message is the body text when non-empty and the status text
otherwise; on an ok response it returns the parsed JSON body. -/
theorem fetchApi_error_iff_not_ok (r : FetchResponse) :
    (r.ok = false →
      fetchApi r = Except.error (if r.bodyText = "" then r.statusText else r.bodyText)) ∧
    (r.ok = true → fetchApi r = Except.ok r.jsonBody) ∧
    (∀ e, fetchApi r = Except.error e → r.ok = false) := by
  refine ⟨fun h => by simp [fetchApi, h], fun h => by simp [fetchApi, h], fun e he => ?_⟩
  by_contra hok
  have : r.ok = true := by
    cases hr : r.ok
    · exact absurd hr hok
    · rfl
  simp [fetchApi, this] at he

/-- Witness for C5 at a concrete non-ok response with an empty body. -/
theorem fetchApi_error_iff_not_ok_witness :
    fetchApi { ok := false, bodyText := "", statusText := "Not Found", jsonBody := Json.null } =
      Except.error "Not Found" := by
  have h :=
    (fetchApi_error_iff_not_ok
      { ok := false, bodyText := "", statusText := "Not Found", jsonBody := Json.null }).1 rfl
  simpa using h

/-- C4: `getDirtyFiles` returns exactly the file records whose `dirty` flag
is true, and the empty list when no graph is loaded. -/
theorem getDirtyFiles_exactly_dirty (s : StoreState) :
    (s.graph = none → getDirtyFiles s = []) ∧
    (∀ g, s.graph = some g →
      ∀ f, f ∈ getDirtyFiles s ↔ (f ∈ g.files.map Prod.snd ∧ f.dirty = true)) := by
  constructor
  · intro h; simp [getDirtyFiles, h]
  · intro g hg f
    simp [getDirtyFiles, hg, List.mem_filter]

/-- Witness for C4: in the sample state the dirty file is returned. -/
theorem getDirtyFiles_exactly_dirty_witness : fileA ∈ getDirtyFiles sampleState :=
  ((getDirtyFiles_exactly_dirty sampleState).2 sampleGraph rfl fileA).mpr (by decide)

/-- C10: on a blank (empty after trimming) commit message, `handleApply`
returns without calling `applyChanges`, and the Apply button is disabled. -/
theorem handleApply_blank_guard (msg : String) (pr applying : Bool)
    (h : jsTrim msg = "") :
    handleApply msg pr = none ∧ applyButtonDisabled msg applying = true := by
  constructor
  · simp [handleApply, h]
  · simp [applyButtonDisabled, h]

/-- Witness for C10 at a whitespace-only commit message. -/
theorem handleApply_blank_guard_witness :
    handleApply "   " true = none ∧ applyButtonDisabled "   " false = true :=
  handleApply_blank_guard "   " true false (by decide)

/-- C2: when the apply call fails, the caller-visible graph (and hence
every file's dirty flag) is exactly as before and the failure is
re-raised; the graph is replaced by the freshly loaded one only when the
apply call succeeds. -/
theorem applyChanges_atomic (s : StoreState) (e : String) (fetched : Except String Graph)
    (r : Json) (g : Graph) :
    (applyChanges s (Except.error e) fetched).1.graph = s.graph ∧
    (applyChanges s (Except.error e) fetched).2 = Except.error e ∧
    (∀ g0, s.graph = some g0 →
      ∃ g', (applyChanges s (Except.error e) fetched).1.graph = some g' ∧
        g'.files = g0.files) ∧
    (applyChanges s (Except.ok r) (Except.ok g)).1.graph = some g ∧
    (applyChanges s (Except.ok r) (Except.ok g)).2 = Except.ok r := by
  refine ⟨rfl, rfl, ?_, rfl, rfl⟩
  intro g0 h
  refine ⟨g0, ?_, rfl⟩
  simp [applyChanges, h]

/-- Witness for C2: a failed apply on the sample state leaves the sample
graph's files (dirty flags included) in place. -/
theorem applyChanges_atomic_witness :
    ∃ g', (applyChanges sampleState (Except.error "boom") (Except.ok sampleGraph)).1.graph =
        some g' ∧ g'.files = sampleGraph.files :=
  (applyChanges_atomic sampleState "boom" (Except.ok sampleGraph) Json.null
    sampleGraph).2.2.1 sampleGraph rfl

/-- C1: after a successful `deleteNode(nodeId)` the graph contains no node
with that id and no edge touching it, while every node with a different id
remains present (and no node appears that was not there before). -/
theorem deleteNode_removes_node_and_edges (s : StoreState) (errs : List ValidationError)
    (nodeId : String) (g : Graph) (h : s.graph = some g) :
    ∃ g', (deleteNode s (Except.ok errs) nodeId).graph = some g' ∧
      (∀ n ∈ g'.nodes, n.id ≠ nodeId) ∧
      (∀ e ∈ g'.edges, e.«from» ≠ nodeId ∧ e.«to» ≠ nodeId) ∧
      (∀ n ∈ g.nodes, n.id ≠ nodeId → n ∈ g'.nodes) ∧
      (∀ n ∈ g'.nodes, n ∈ g.nodes) ∧
      g'.files = g.files := by
  refine ⟨{ g with
      nodes := g.nodes.filter (fun n => n.id ≠ nodeId),
      edges := g.edges.filter (fun e => e.«from» ≠ nodeId ∧ e.«to» ≠ nodeId) },
    by simp [deleteNode, h], ?_, ?_, ?_, ?_, rfl⟩
  · intro n hn
    have := (List.mem_filter.mp hn).2
    simpa using this
  · intro e he
    have := (List.mem_filter.mp he).2
    simpa using this
  · intro n hn hne
    exact List.mem_filter.mpr ⟨hn, by simpa using hne⟩
  · intro n hn
    exact (List.mem_filter.mp hn).1

/-- Witness for C1: deleting `n1` from the sample state. -/
theorem deleteNode_removes_node_and_edges_witness :
    ∃ g', (deleteNode sampleState (Except.ok []) "n1").graph = some g' ∧
      (∀ n ∈ g'.nodes, n.id ≠ "n1") ∧
      (∀ e ∈ g'.edges, e.«from» ≠ "n1" ∧ e.«to» ≠ "n1") ∧
      (∀ n ∈ sampleGraph.nodes, n.id ≠ "n1" → n ∈ g'.nodes) ∧
      (∀ n ∈ g'.nodes, n ∈ sampleGraph.nodes) ∧
      g'.files = sampleGraph.files :=
  deleteNode_removes_node_and_edges sampleState [] "n1" sampleGraph rfl

/-- C9: `createNode` with a `(kind, namespace, name)` already present fails
with `ConflictError`, and the caller-visible graph — its node count
included — is unchanged. -/
theorem createNode_conflict_unchanged (g : Graph) (n : GraphNode)
    (h : ∃ m ∈ g.nodes, m.kind = n.kind ∧ m.«namespace» = n.«namespace» ∧ m.name = n.name) :
    createNode g n = Except.error MutationError.conflict ∧
    resultGraph g (createNode g n) = g ∧
    (resultGraph g (createNode g n)).nodes.length = g.nodes.length := by
  have hany : (g.nodes.any (fun m =>
      m.kind = n.kind && m.«namespace» = n.«namespace» && m.name = n.name)) = true := by
    rcases h with ⟨m, hm, h1, h2, h3⟩
    rw [List.any_eq_true]
    exact ⟨m, hm, by simp [h1, h2, h3]⟩
  have hc : createNode g n = Except.error MutationError.conflict := by
    simp [createNode, hany]
  exact ⟨hc, by rw [hc]; rfl, by rw [hc]; rfl⟩

/-- Witness for C9: creating a second `Deployment default/web` over the
sample graph is rejected with a conflict. -/
theorem createNode_conflict_unchanged_witness :
    createNode sampleGraph { nodeD with id := "other", filePath := "b.yaml" } =
      Except.error MutationError.conflict ∧
    resultGraph sampleGraph
        (createNode sampleGraph { nodeD with id := "other", filePath := "b.yaml" }) =
      sampleGraph ∧
    (resultGraph sampleGraph
        (createNode sampleGraph { nodeD with id := "other", filePath := "b.yaml" })).nodes.length =
      sampleGraph.nodes.length :=
  createNode_conflict_unchanged sampleGraph { nodeD with id := "other", filePath := "b.yaml" }
    ⟨nodeD, by decide, rfl, rfl, rfl⟩

/-- C3 counterexample: an edited copy whose `selector` was cleared (a
falsy edited value) while the node still has one.  The edited value
differs, yet the payload omits the field, refuting the claimed "if and
only if" — the code guards `selector`, `containers` and `ports` by the
truthiness of the edited value. -/
theorem handleSave_counterexample :
    ({ nodeS with selector := none } : GraphNode).selector ≠ nodeS.selector ∧
    ¬ ((buildUpdates nodeS { nodeS with selector := none }).selector.isSome ↔
        ({ nodeS with selector := none } : GraphNode).selector ≠ nodeS.selector) := by
  decide

/-- C3 amended: `name`, `namespace`, `labels`, `replicas` and
`serviceType` are in the payload iff they differ; `selector`, `containers`
and `ports` are in the payload iff the edited value is present (truthy)
and differs; `updateNode` is invoked only when at least one field differs,
and exactly when the payload is non-empty. -/
theorem handleSave_sparse_patch (node localNode : GraphNode) :
    ((buildUpdates node localNode).name.isSome ↔ localNode.name ≠ node.name) ∧
    ((buildUpdates node localNode).«namespace».isSome ↔
      localNode.«namespace» ≠ node.«namespace») ∧
    ((buildUpdates node localNode).labels.isSome ↔ localNode.labels ≠ node.labels) ∧
    ((buildUpdates node localNode).replicas.isSome ↔ localNode.replicas ≠ node.replicas) ∧
    ((buildUpdates node localNode).serviceType.isSome ↔
      localNode.serviceType ≠ node.serviceType) ∧
    ((buildUpdates node localNode).selector.isSome ↔
      localNode.selector.isSome ∧ localNode.selector ≠ node.selector) ∧
    ((buildUpdates node localNode).containers.isSome ↔
      localNode.containers.isSome ∧ localNode.containers ≠ node.containers) ∧
    ((buildUpdates node localNode).ports.isSome ↔
      localNode.ports.isSome ∧ localNode.ports ≠ node.ports) ∧
    (∀ p, handleSave node localNode = some p →
      localNode.name ≠ node.name ∨ localNode.«namespace» ≠ node.«namespace» ∨
      localNode.labels ≠ node.labels ∨ localNode.replicas ≠ node.replicas ∨
      localNode.serviceType ≠ node.serviceType ∨ localNode.selector ≠ node.selector ∨
      localNode.containers ≠ node.containers ∨ localNode.ports ≠ node.ports) ∧
    (handleSave node localNode = none ↔ (buildUpdates node localNode).isEmpty = true) := by
  refine ⟨?_, ?_, ?_, ?_, ?_, ?_, ?_, ?_, ?_, ?_⟩
  · by_cases h : localNode.name = node.name <;> simp [buildUpdates, h]
  · by_cases h : localNode.«namespace» = node.«namespace» <;> simp [buildUpdates, h]
  · by_cases h : localNode.labels = node.labels <;> simp [buildUpdates, h]
  · by_cases h : localNode.replicas = node.replicas <;> simp [buildUpdates, h]
  · by_cases h : localNode.serviceType = node.serviceType <;> simp [buildUpdates, h]
  · cases h : localNode.selector with
    | none => simp [buildUpdates, h]
    | some v =>
      by_cases h2 : some v = node.selector <;> simp [buildUpdates, h, h2] <;>
        cases node.selector <;> simp
  · cases h : localNode.containers with
    | none => simp [buildUpdates, h]
    | some v =>
      by_cases h2 : some v = node.containers <;> simp [buildUpdates, h, h2] <;>
        cases node.containers <;> simp
  · cases h : localNode.ports with
    | none => simp [buildUpdates, h]
    | some v =>
      by_cases h2 : some v = node.ports <;> simp [buildUpdates, h, h2] <;>
        cases node.ports <;> simp
  · intro p hp
    by_contra hall
    push_neg at hall
    obtain ⟨h1, h2, h3, h4, h5, h6, h7, h8⟩ := hall
    have e1 : (buildUpdates node localNode).name = none := by simp [buildUpdates, h1]
    have e2 : (buildUpdates node localNode).«namespace» = none := by simp [buildUpdates, h2]
    have e3 : (buildUpdates node localNode).labels = none := by simp [buildUpdates, h3]
    have e4 : (buildUpdates node localNode).replicas = none := by simp [buildUpdates, h4]
    have e5 : (buildUpdates node localNode).serviceType = none := by simp [buildUpdates, h5]
    have e6 : (buildUpdates node localNode).selector = none := by
      cases hv : localNode.selector with
      | none => simp [buildUpdates, hv]
      | some v => simp [buildUpdates, hv, hv ▸ h6] <;> cases node.selector <;> simp
    have e7 : (buildUpdates node localNode).containers = none := by
      cases hv : localNode.containers with
      | none => simp [buildUpdates, hv]
      | some v => simp [buildUpdates, hv, hv ▸ h7] <;> cases node.containers <;> simp
    have e8 : (buildUpdates node localNode).ports = none := by
      cases hv : localNode.ports with
      | none => simp [buildUpdates, hv]
      | some v => simp [buildUpdates, hv, hv ▸ h8] <;> cases node.ports <;> simp
    have hemp : (buildUpdates node localNode).isEmpty = true := by
      simp [Updates.isEmpty, e1, e2, e3, e4, e5, e6, e7, e8]
    simp [handleSave, hemp] at hp
  · by_cases h : (buildUpdates node localNode).isEmpty <;> simp [handleSave, h]

/-- Witness for C3 (amended): renaming the sample Deployment puts exactly
the name into the payload. -/
theorem handleSave_sparse_patch_witness :
    (buildUpdates nodeD { nodeD with name := "web2" }).name.isSome :=
  (handleSave_sparse_patch nodeD { nodeD with name := "web2" }).1.mpr (by decide)

/-- C6: load, update, delete and position change all preserve the
transmitted graph shape — nodes and edges stay lists (enforced by the
`Graph` type) and `files` stays a path-keyed mapping (`WellShaped`),
assuming the graphs installed from the server are well-shaped. -/
theorem graph_shape_preserved (s : StoreState) :
    (∀ g, WellShaped g → ∀ g', (loadGraph s (Except.ok g)).graph = some g' → WellShaped g') ∧
    (∀ g errs, WellShaped g → ∀ g',
      (updateNode s (Except.ok (g, errs))).graph = some g' → WellShaped g') ∧
    (∀ nodeId errs g, s.graph = some g → WellShaped g → ∀ g',
      (deleteNode s (Except.ok errs) nodeId).graph = some g' → WellShaped g') ∧
    (∀ nodeId x y g, s.graph = some g → WellShaped g → ∀ g',
      (updateNodePosition s nodeId x y).graph = some g' → WellShaped g') := by
  refine ⟨?_, ?_, ?_, ?_⟩
  · intro g hW g' h
    simp [loadGraph] at h
    exact h ▸ hW
  · intro g errs hW g' h
    simp [updateNode] at h
    exact h ▸ hW
  · intro nodeId errs g hg hW g' h
    simp [deleteNode, hg] at h
    subst h
    exact fun pf hpf => hW pf hpf
  · intro nodeId x y g hg hW g' h
    by_cases hany : (g.nodes.any (fun n => n.id = nodeId)) = true
    · simp [updateNodePosition, hg, hany] at h
      subst h
      exact fun pf hpf => hW pf hpf
    · simp [updateNodePosition, hg, hany] at h
      subst h
      exact hW

/-- Witness for C6: the sample graph survives a load well-shaped. -/
theorem graph_shape_preserved_witness : WellShaped sampleGraph :=
  (graph_shape_preserved sampleState).1 sampleGraph (by decide) sampleGraph rfl

/-- The rewrite `setNodePos` does not change the list's length. -/
theorem setNodePos_length (nodeId : String) (x y : Int) (l : List GraphNode) :
    (setNodePos nodeId x y l).length = l.length := by
  induction l with
  | nil => rfl
  | cons n rest ih =>
    by_cases h : n.id = nodeId <;> simp [setNodePos, h, ih]

/-- Pointwise behaviour of `setNodePos` over a list with no duplicate ids:
each position keeps its node unless the node carries the target id, in
which case only `visual.x`/`visual.y` change. -/
theorem setNodePos_get (nodeId : String) (x y : Int) :
    ∀ (l : List GraphNode), (l.map GraphNode.id).Nodup →
      ∀ (i : Nat) (hi : i < l.length) (hi' : i < (setNodePos nodeId x y l).length),
        (setNodePos nodeId x y l)[i] =
          if l[i].id = nodeId then withPos l[i] x y else l[i] := by
  intro l
  induction l with
  | nil =>
    intro _ i hi _
    exact absurd hi (by simp)
  | cons n rest ih =>
    intro hnd i hi hi'
    have hpair : (∀ m ∈ rest, ¬ m.id = n.id) ∧ (rest.map GraphNode.id).Nodup := by
      simpa using hnd
    by_cases hn : n.id = nodeId
    · cases i with
      | zero => simp [setNodePos, hn, withPos]
      | succ j =>
        have hj : j < rest.length := Nat.lt_of_succ_lt_succ hi
        have hne : ¬ rest[j].id = nodeId := by
          intro hEq
          exact hpair.1 rest[j] (List.getElem_mem hj) (hEq.trans hn.symm)
        simp [setNodePos, hn, hne]
    · cases i with
      | zero => simp [setNodePos, hn]
      | succ j =>
        have hj : j < rest.length := Nat.lt_of_succ_lt_succ hi
        have hj' : j < (setNodePos nodeId x y rest).length := by
          rw [setNodePos_length]; exact hj
        simpa [setNodePos, hn] using ih hpair.2 j hj hj'

/-- C7: `updateNodePosition` changes only `visual.x`/`visual.y` of the node
with the given id — all its other fields, every other node, the edges,
the files (dirty flags included) and the rest of the store state are
untouched — and the state is entirely unchanged when no graph is loaded or
no node carries the id. -/
theorem updateNodePosition_frame (s : StoreState) (nodeId : String) (x y : Int) :
    (∀ n : GraphNode, (withPos n x y).visual.x = x ∧ (withPos n x y).visual.y = y ∧
      (withPos n x y).visual.width = n.visual.width ∧
      (withPos n x y).visual.height = n.visual.height ∧
      (withPos n x y).id = n.id ∧ (withPos n x y).kind = n.kind ∧
      (withPos n x y).name = n.name ∧ (withPos n x y).«namespace» = n.«namespace» ∧
      (withPos n x y).labels = n.labels ∧ (withPos n x y).filePath = n.filePath ∧
      (withPos n x y).replicas = n.replicas ∧ (withPos n x y).serviceType = n.serviceType ∧
      (withPos n x y).selector = n.selector ∧ (withPos n x y).containers = n.containers ∧
      (withPos n x y).ports = n.ports) ∧
    (s.graph = none → updateNodePosition s nodeId x y = s) ∧
    (∀ g, s.graph = some g → (∀ n ∈ g.nodes, n.id ≠ nodeId) →
      updateNodePosition s nodeId x y = s) ∧
    ((updateNodePosition s nodeId x y).selectedNodeId = s.selectedNodeId ∧
      (updateNodePosition s nodeId x y).selectedFile = s.selectedFile ∧
      (updateNodePosition s nodeId x y).validationErrors = s.validationErrors ∧
      (updateNodePosition s nodeId x y).isLoading = s.isLoading ∧
      (updateNodePosition s nodeId x y).error = s.error) ∧
    (∀ g, s.graph = some g → (g.nodes.map GraphNode.id).Nodup →
      ∃ g', (updateNodePosition s nodeId x y).graph = some g' ∧
        g'.edges = g.edges ∧ g'.files = g.files ∧
        g'.nodes.length = g.nodes.length ∧
        ∀ (i : Nat) (hi : i < g.nodes.length) (hi' : i < g'.nodes.length),
          g'.nodes[i] =
            if g.nodes[i].id = nodeId then withPos g.nodes[i] x y else g.nodes[i]) := by
  refine ⟨?_, ?_, ?_, ?_, ?_⟩
  · intro n
    exact ⟨rfl, rfl, rfl, rfl, rfl, rfl, rfl, rfl, rfl, rfl, rfl, rfl, rfl, rfl, rfl⟩
  · intro h
    simp [updateNodePosition, h]
  · intro g hg hnone
    have hany : (g.nodes.any (fun n => n.id = nodeId)) = false := by
      rw [List.any_eq_false]
      intro n hn
      simpa using hnone n hn
    simp [updateNodePosition, hg, hany]
  · cases h : s.graph with
    | none => simp [updateNodePosition, h]
    | some g =>
      by_cases hany : (g.nodes.any (fun n => n.id = nodeId)) = true <;>
        simp [updateNodePosition, h, hany]
  · intro g hg hnd
    by_cases hany : (g.nodes.any (fun n => n.id = nodeId)) = true
    · refine ⟨{ g with nodes := setNodePos nodeId x y g.nodes },
        by simp [updateNodePosition, hg, hany], rfl, rfl,
        setNodePos_length nodeId x y g.nodes, ?_⟩
      intro i hi hi'
      exact setNodePos_get nodeId x y g.nodes hnd i hi hi'
    · have hno : ∀ n ∈ g.nodes, n.id ≠ nodeId := by
        simpa using hany
      refine ⟨g, by simp [updateNodePosition, hg, hany], rfl, rfl, rfl, ?_⟩
      intro i hi hi'
      rw [if_neg (hno g.nodes[i] (List.getElem_mem hi))]

/-- Witness for C7: moving node `n1` of the sample state to (5, 7). -/
theorem updateNodePosition_frame_witness :
    ∃ g', (updateNodePosition sampleState "n1" 5 7).graph = some g' ∧
      g'.edges = sampleGraph.edges ∧ g'.files = sampleGraph.files ∧
      g'.nodes.length = sampleGraph.nodes.length ∧
      ∀ (i : Nat) (hi : i < sampleGraph.nodes.length) (hi' : i < g'.nodes.length),
        g'.nodes[i] =
          if sampleGraph.nodes[i].id = "n1" then withPos sampleGraph.nodes[i] 5 7
          else sampleGraph.nodes[i] :=
  (updateNodePosition_frame sampleState "n1" 5 7).2.2.2.2 sampleGraph rfl (by decide)

/-- Membership in one node's contribution of `selector` edges. -/
theorem mem_selectorEdgesFor (nodes : List GraphNode) (s' : GraphNode) (e : GraphEdge) :
    e ∈ selectorEdgesFor nodes s' ↔
      ∃ sel, s'.kind = "Service" ∧ s'.selector = some sel ∧ sel ≠ [] ∧
        ∃ t ∈ nodes,
          ((t.kind = "Deployment" ∨ t.kind = "Pod") ∧ t.«namespace» = s'.«namespace» ∧
            selectorMatches sel t.labels = true) ∧
          e = { «from» := s'.id, «to» := t.id, relationType := "selector" } := by
  constructor
  · intro hmem
    unfold selectorEdgesFor at hmem
    by_cases hk : s'.kind = "Service"
    · rw [if_pos hk] at hmem
      cases hsel : s'.selector with
      | none => rw [hsel] at hmem; simp at hmem
      | some sel =>
        rw [hsel] at hmem
        by_cases hne : sel = []
        · simp [hne] at hmem
        · simp only [hne, ne_eq, not_false_iff, if_true, ite_true,
            List.mem_map, List.mem_filter] at hmem
          obtain ⟨t, ⟨ht, hcond⟩, heq⟩ := hmem
          refine ⟨sel, hk, rfl, hne, t, ht, ?_, heq.symm⟩
          simpa using hcond
    · rw [if_neg hk] at hmem
      simp at hmem
  · rintro ⟨sel, hk, hsel, hne, t, ht, hcond, rfl⟩
    unfold selectorEdgesFor
    rw [if_pos hk, hsel]
    simp only [hne, ne_eq, not_false_iff, if_true, ite_true, List.mem_map, List.mem_filter]
    exact ⟨t, ⟨ht, by simpa using hcond⟩, rfl⟩

/-- C8 counterexample: a ConfigMap in the Service's namespace whose labels
contain every selector pair still receives no `selector` edge — the rule
targets only Deployment/Pod nodes, so "exactly those nodes in the same
namespace whose labels match" over-claims. -/
theorem selectorEdges_counterexample :
    nodeS.selector = some [("app", "x")] ∧
    cmNode.«namespace» = nodeS.«namespace» ∧
    selectorMatches [("app", "x")] cmNode.labels = true ∧
    ¬ ∃ e ∈ selectorEdges [nodeS, cmNode], e.«to» = "cm" := by
  decide

/-- C8 amended: a Service with a non-empty selector produces a `selector`
edge to exactly those Deployment or Pod nodes in the same namespace whose
labels contain every key/value pair of the selector, and a Service with an
empty (or absent) selector produces no selector edges at all. -/
theorem selectorEdges_spec (nodes : List GraphNode) (s : GraphNode)
    (hnd : (nodes.map GraphNode.id).Nodup) (hs : s ∈ nodes) (hk : s.kind = "Service") :
    (∀ sel, s.selector = some sel → sel ≠ [] →
      ∀ t ∈ nodes,
        (({ «from» := s.id, «to» := t.id, relationType := "selector" } : GraphEdge) ∈
            selectorEdges nodes ↔
          (t.kind = "Deployment" ∨ t.kind = "Pod") ∧ t.«namespace» = s.«namespace» ∧
            selectorMatches sel t.labels = true)) ∧
    ((s.selector = none ∨ s.selector = some []) →
      ∀ e ∈ selectorEdges nodes, e.«from» ≠ s.id) := by
  have hinj : ∀ a ∈ nodes, ∀ b ∈ nodes, a.id = b.id → a = b := by
    intro a ha b hb hab
    exact List.inj_on_of_nodup_map hnd ha hb hab
  constructor
  · intro sel hsel hne t ht
    constructor
    · intro he
      obtain ⟨s', hs', hmem⟩ := List.mem_flatMap.mp he
      obtain ⟨sel', hk', hsel', hne', t', ht', hcond, heq⟩ :=
        (mem_selectorEdgesFor nodes s' _).mp hmem
      have h1 : s.id = s'.id := congrArg GraphEdge.«from» heq
      have h2 : t.id = t'.id := congrArg GraphEdge.«to» heq
      have hss : s = s' := hinj s hs s' hs' h1
      have htt : t = t' := hinj t ht t' ht' h2
      subst hss
      subst htt
      have hsels : sel' = sel := Option.some.inj (hsel'.symm.trans hsel)
      subst hsels
      exact hcond
    · intro hcond
      refine List.mem_flatMap.mpr ⟨s, hs, ?_⟩
      exact (mem_selectorEdgesFor nodes s _).mpr ⟨sel, hk, hsel, hne, t, ht, hcond, rfl⟩
  · intro hemp e he hfrom
    obtain ⟨s', hs', hmem⟩ := List.mem_flatMap.mp he
    obtain ⟨sel', hk', hsel', hne', t', ht', hcond, heq⟩ :=
      (mem_selectorEdgesFor nodes s' _).mp hmem
    have h1 : s.id = s'.id := by rw [← hfrom, heq]
    have hss : s = s' := hinj s hs s' hs' h1
    subst hss
    rcases hemp with h | h
    · rw [h] at hsel'
      exact Option.noConfusion hsel'
    · rw [h] at hsel'
      exact hne' (Option.some.inj hsel').symm

/-- Witness for C8 (amended): in the sample pair the Service `n2` gets a
selector edge to the Deployment `n1`. -/
theorem selectorEdges_spec_witness :
    ({ «from» := "n2", «to» := "n1", relationType := "selector" } : GraphEdge) ∈
      selectorEdges [nodeD, nodeS] :=
  (((selectorEdges_spec [nodeD, nodeS] nodeS (by decide) (by decide) rfl).1
      [("app", "x")] rfl (by decide) nodeD (by decide)).mpr (by decide))
